import Mathlib

/-!
Verification of the hierarchical memory subsystem of `memory_system.py`.

Shallow embedding conventions:
* timestamps (`datetime`) are integers counting seconds; `datetime.now()`
  becomes an explicit `now : Int` parameter threaded to every operation that
  reads the clock;
* float scores are embedded as exact rationals `ℚ` (the claims under study do
  not depend on binary floating-point rounding);
* `content` is a tagged payload: `text s` models a Python `str`, `obj r`
  models any other pickled object whose `str()` representation is `r`
  (pickling round-trips faithfully and is not modelled further);
* the MD5 canonical content hash used by duplicate merging is modelled by
  `str(content)` itself (an injective stand-in; hash collisions are not
  modelled);
* Python `set`/`dict` become `Finset String` and insertion-ordered
  association lists `List (String × String)`; metadata values are restricted
  to strings, which is all the claims exercise, and `dict.update` is
  `dictUpdate` below;
* a SQLite persistence fault (an exception out of `sqlite3`) is modelled by a
  `fault : Bool` argument on each store operation: `fault = true` makes the
  raw operation raise, mirroring the `try/except` structure of the source;
* fresh uuid-based identifiers are modelled as explicit arguments (for the
  facade) or as an injective renaming of the source id (for consolidation),
  since only freshness and distinctness of the generated ids are relevant.
-/

/-- The four memory tiers of `MemoryType` in the source. -/
inductive MemoryType
  | working
  | episodic
  | semantic
  | procedural
deriving DecidableEq, Repr

/-- Tagged model of the Python `content` payload: a text string or any other
pickled object together with its `str()` representation. -/
inductive Content
  | text (s : String)
  | obj (repr : String)
deriving DecidableEq, Repr

/-- The `str(content)` string used for duplicate hashing. -/
def Content.str : Content → String
  | .text s => s
  | .obj r => r

/-- Tier-specific payload of a memory item: the extra dataclass fields of
`WorkingMemory`, `EpisodicMemory` and `SemanticMemory`. -/
inductive Variant
  | plain
  | working (taskId : Option String) (expiryTime : Option Int) (priority : Int)
  | episodic (context : List (String × String)) (participants : List String)
      (outcome : Option String) (lessonsLearned : List String)
  | semantic (concept : String) (relationships : List (String × List String))
      (confidenceScore : ℚ) (source : Option String)
deriving DecidableEq, Repr

/-- In-memory model of a `MemoryItem` object (base dataclass fields plus the
tier-specific payload). -/
structure MemoryItem where
  id : String
  content : Content
  memoryType : MemoryType
  createdAt : Int
  lastAccessed : Int
  accessCount : Nat
  importanceScore : ℚ
  tags : Finset String
  metadata : List (String × String)
  variant : Variant
deriving DecidableEq

/-- A persisted row of the `memory_items` table: exactly the nine columns of
`_init_database`.  The tier-specific payload has no column and is dropped. -/
structure Row where
  id : String
  content : Content
  memoryType : MemoryType
  createdAt : Int
  lastAccessed : Int
  accessCount : Nat
  importanceScore : ℚ
  tags : Finset String
  metadata : List (String × String)
deriving DecidableEq

/-- The tuple bound by the `INSERT OR REPLACE` statement of
`SQLiteMemoryStore.store`: every base field is serialized, the subclass
fields are not mentioned. -/
def MemoryItem.toRow (item : MemoryItem) : Row :=
  { id := item.id
    content := item.content
    memoryType := item.memoryType
    createdAt := item.createdAt
    lastAccessed := item.lastAccessed
    accessCount := item.accessCount
    importanceScore := item.importanceScore
    tags := item.tags
    metadata := item.metadata }

/-- One key of a Python `dict.update`: a key already present keeps its
position and takes the new value, a new key is appended. -/
def dictInsert (d : List (String × String)) (kv : String × String) :
    List (String × String) :=
  if d.any (fun p => decide (p.1 = kv.1)) then
    d.map (fun p => if p.1 = kv.1 then kv else p)
  else d ++ [kv]

/-- Python `dict.update`: apply `dictInsert` for each pair of the other map
in order. -/
def dictUpdate (d other : List (String × String)) : List (String × String) :=
  other.foldl dictInsert d

/-- The query dictionary accepted by `SQLiteMemoryStore.search`. -/
structure SearchQuery where
  memoryType : Option MemoryType := none
  minImportance : Option ℚ := none
  tags : Option (List String) := none
  createdAfter : Option Int := none
  limit : Option Nat := none
deriving Repr

/-- The WHERE clause built by `SQLiteMemoryStore.search`: all present filters
are conjoined; the tag filter ANDs one `LIKE '%"tag"%'` clause per requested
tag, which for quote-free tags coincides with membership of the tag in the
JSON-encoded tag list. -/
def matchesQuery (q : SearchQuery) (row : Row) : Bool :=
  (match q.memoryType with
    | none => true
    | some mt => decide (row.memoryType = mt)) &&
  (match q.minImportance with
    | none => true
    | some v => decide (v ≤ row.importanceScore)) &&
  (match q.tags with
    | none => true
    | some ts => ts.all (fun t => decide (t ∈ row.tags))) &&
  (match q.createdAfter with
    | none => true
    | some v => decide (v < row.createdAt))

/-- The `ORDER BY importance_score DESC, last_accessed DESC` relation used by
the store's search (a total preorder; ties are returned in a fixed stable
order by the model). -/
def rowOrder (a b : Row) : Prop :=
  b.importanceScore < a.importanceScore ∨
    (a.importanceScore = b.importanceScore ∧ b.lastAccessed ≤ a.lastAccessed)

instance : DecidableRel rowOrder := fun a b => by
  unfold rowOrder; infer_instance

/-- Replacement of the row keyed `r.id`, or append: the effect of SQLite
`INSERT OR REPLACE` on the primary key `id`. -/
def upsertRow (rows : List Row) (r : Row) : List Row :=
  if rows.any (fun x => decide (x.id = r.id)) then
    rows.map (fun x => if x.id = r.id then r else x)
  else rows ++ [r]

/-- Model of `sqlite3.connect` and the statements it runs: raises exactly
when the injected persistence fault is set. -/
def connectDB (fault : Bool) : Except String Unit :=
  if fault then Except.error "sqlite fault" else Except.ok ()

/-- Raw body of `SQLiteMemoryStore.store`, before its `except` clause. -/
def SQLiteMemoryStore.storeRaw (fault : Bool) (rows : List Row)
    (item : MemoryItem) : Except String (List Row × Bool) := do
  _ ← connectDB fault
  Except.ok (upsertRow rows item.toRow, true)

/-- `SQLiteMemoryStore.store`: any exception is caught, logged, and turned
into a `false` result with the database unchanged. -/
def SQLiteMemoryStore.store (fault : Bool) (rows : List Row)
    (item : MemoryItem) : List Row × Bool :=
  match SQLiteMemoryStore.storeRaw fault rows item with
  | Except.ok v => v
  | Except.error _ => (rows, false)

/-- Reconstruction of a `MemoryItem` from a row
(`SQLiteMemoryStore._row_to_memory_item`).  The subclass constructors receive
none of the tier-specific fields, so each dataclass default and
`__post_init__` hook applies: in particular a Working item gets
`task_id=None`, `priority=5`, and `expiry_time = now + 1 hour`, where `now`
is the reconstruction time. -/
def SQLiteMemoryStore.row_to_memory_item (now : Int) (row : Row) : MemoryItem :=
  { id := row.id
    content := row.content
    memoryType := row.memoryType
    createdAt := row.createdAt
    lastAccessed := row.lastAccessed
    accessCount := row.accessCount
    importanceScore := row.importanceScore
    tags := row.tags
    metadata := row.metadata
    variant :=
      match row.memoryType with
      | .episodic => Variant.episodic [] [] none []
      | .semantic => Variant.semantic "" [] 1 none
      | .working => Variant.working none (some (now + 3600)) 5
      | .procedural => Variant.plain }

/-- Raw body of `SQLiteMemoryStore.retrieve`. -/
def SQLiteMemoryStore.retrieveRaw (fault : Bool) (now : Int) (rows : List Row)
    (itemId : String) : Except String (Option MemoryItem) := do
  _ ← connectDB fault
  Except.ok ((rows.find? (fun x => decide (x.id = itemId))).map
    (SQLiteMemoryStore.row_to_memory_item now))

/-- `SQLiteMemoryStore.retrieve`: exceptions become a `None` result. -/
def SQLiteMemoryStore.retrieve (fault : Bool) (now : Int) (rows : List Row)
    (itemId : String) : Option MemoryItem :=
  match SQLiteMemoryStore.retrieveRaw fault now rows itemId with
  | Except.ok v => v
  | Except.error _ => none

/-- Raw body of `SQLiteMemoryStore.search`: filter, order by importance then
recency, apply `LIMIT` (default 100), and decode each row. -/
def SQLiteMemoryStore.searchRaw (fault : Bool) (now : Int) (rows : List Row)
    (q : SearchQuery) : Except String (List MemoryItem) := do
  _ ← connectDB fault
  Except.ok ((((rows.filter (matchesQuery q)).insertionSort rowOrder).take
    (q.limit.getD 100)).map (SQLiteMemoryStore.row_to_memory_item now))

/-- `SQLiteMemoryStore.search`: exceptions become an empty result list. -/
def SQLiteMemoryStore.search (fault : Bool) (now : Int) (rows : List Row)
    (q : SearchQuery) : List MemoryItem :=
  match SQLiteMemoryStore.searchRaw fault now rows q with
  | Except.ok v => v
  | Except.error _ => []

/-- Raw body of `SQLiteMemoryStore.delete`: removes the row and reports
whether a row was actually deleted (`rowcount > 0`). -/
def SQLiteMemoryStore.deleteRaw (fault : Bool) (rows : List Row)
    (itemId : String) : Except String (List Row × Bool) := do
  _ ← connectDB fault
  Except.ok (rows.filter (fun x => decide (¬ x.id = itemId)),
    rows.any (fun x => decide (x.id = itemId)))

/-- `SQLiteMemoryStore.delete`: exceptions become a `false` result with the
database unchanged. -/
def SQLiteMemoryStore.delete (fault : Bool) (rows : List Row)
    (itemId : String) : List Row × Bool :=
  match SQLiteMemoryStore.deleteRaw fault rows itemId with
  | Except.ok v => v
  | Except.error _ => (rows, false)

/-- `SQLiteMemoryStore.update` simply delegates to `store` (INSERT OR
REPLACE). -/
def SQLiteMemoryStore.update (fault : Bool) (rows : List Row)
    (item : MemoryItem) : List Row × Bool :=
  SQLiteMemoryStore.store fault rows item

/-- The three per-tier stores owned by `MemorySystem.__init__`, in the
insertion order of the `self.stores` dictionary. -/
structure MemSys where
  working : List Row
  episodic : List Row
  semantic : List Row
deriving DecidableEq

/-- The empty memory system (all three databases empty). -/
def MemSys.empty : MemSys := ⟨[], [], []⟩

/-- Whether `memory_type in self.stores` holds for the facade's store
dictionary. -/
def storesHas : MemoryType → Bool
  | .working => true
  | .episodic => true
  | .semantic => true
  | .procedural => false

/-- The rows of the store selected for a tier (unused for `procedural`,
which has no store). -/
def MemSys.tier (sys : MemSys) : MemoryType → List Row
  | .working => sys.working
  | .episodic => sys.episodic
  | .semantic => sys.semantic
  | .procedural => []

/-- Replace one tier's rows. -/
def MemSys.setTier (sys : MemSys) : MemoryType → List Row → MemSys
  | .working, rows => { sys with working := rows }
  | .episodic, rows => { sys with episodic := rows }
  | .semantic, rows => { sys with semantic := rows }
  | .procedural, _ => sys

/-- The iteration order of `self.stores.items()` / `self.stores.values()`
(Python dictionaries preserve insertion order). -/
def storeOrder : List MemoryType := [.working, .episodic, .semantic]

/-- The keyword arguments accepted by `MemorySystem.store_memory`, with the
`kwargs.get` defaults of the source. -/
structure StoreAttrs where
  taskId : Option String := none
  expiryTime : Option Int := none
  priority : Int := 5
  importanceScore : ℚ := 1/2
  tags : Finset String := ∅
  metadata : List (String × String) := []
  context : List (String × String) := []
  participants : List String := []
  outcome : Option String := none
  lessonsLearned : List String := []
  concept : String := ""
  relationships : List (String × List String) := []
  confidenceScore : ℚ := 1
  source : Option String := none

/-- The item object built by `MemorySystem.store_memory` before persisting:
one dataclass constructor call per tier, including the `__post_init__`
default for a missing Working `expiry_time` (`created_at`/`last_accessed`
default to the construction clock, `access_count` to 0). -/
def MemorySystem.build_item (now : Int) (itemId : String) (content : Content)
    (memoryType : MemoryType) (attrs : StoreAttrs) : MemoryItem :=
  { id := itemId
    content := content
    memoryType := memoryType
    createdAt := now
    lastAccessed := now
    accessCount := 0
    importanceScore := attrs.importanceScore
    tags := attrs.tags
    metadata := attrs.metadata
    variant :=
      match memoryType with
      | .working =>
          Variant.working attrs.taskId
            (some (attrs.expiryTime.getD (now + 3600))) attrs.priority
      | .episodic =>
          Variant.episodic attrs.context attrs.participants attrs.outcome
            attrs.lessonsLearned
      | .semantic =>
          Variant.semantic attrs.concept attrs.relationships
            attrs.confidenceScore attrs.source
      | .procedural => Variant.plain }

/-- `MemorySystem.store_memory`: build the tier-specific item, forward it to
that tier's store, and return the generated id on success or `""` on
failure.  `itemId` stands for the generated `uuid` suffix. -/
def MemorySystem.store_memory (fault : Bool) (now : Int) (itemId : String)
    (content : Content) (memoryType : MemoryType) (attrs : StoreAttrs)
    (sys : MemSys) : MemSys × String :=
  let item := MemorySystem.build_item now itemId content memoryType attrs
  if storesHas memoryType then
    let (rows, ok) := SQLiteMemoryStore.store fault (sys.tier memoryType) item
    if ok then (sys.setTier memoryType rows, itemId) else (sys, "")
  else (sys, "")

/-- `MemorySystem.retrieve_memory`: probe the stores in dictionary order
(Working, Episodic, Semantic) and return the first hit. -/
def MemorySystem.retrieve_memory (now : Int) (sys : MemSys)
    (itemId : String) : Option MemoryItem :=
  match SQLiteMemoryStore.retrieve false now sys.working itemId with
  | some item => some item
  | none =>
    match SQLiteMemoryStore.retrieve false now sys.episodic itemId with
    | some item => some item
    | none => SQLiteMemoryStore.retrieve false now sys.semantic itemId

/-- The final sort relation of `MemoryRetrieval.retrieve_by_context`:
Python `sort(key=lambda x: (x.importance_score, -x.access_count),
reverse=True)`, i.e. importance descending and, on ties, the NEGATED access
count descending — which is access count ascending. -/
def ctxOrder (a b : MemoryItem) : Prop :=
  b.importanceScore < a.importanceScore ∨
    (a.importanceScore = b.importanceScore ∧ a.accessCount ≤ b.accessCount)

instance : DecidableRel ctxOrder := fun a b => by
  unfold ctxOrder; infer_instance

/-- `MemoryRetrieval._build_context_query`. -/
structure Context where
  keywords : Option (List String) := none
  timeRangeStart : Option Int := none
  importanceThreshold : Option ℚ := none
  limit : Option Nat := none

/-- The tier query built from a retrieval context (`_build_context_query`):
keywords become the tag filter, the time-range start becomes
`created_after`, the importance threshold becomes `min_importance`, and the
limit defaults to 50. -/
def MemoryRetrieval.build_context_query (ctx : Context) (mt : MemoryType) :
    SearchQuery :=
  { memoryType := some mt
    tags := ctx.keywords
    createdAfter := ctx.timeRangeStart
    minImportance := ctx.importanceThreshold
    limit := some (ctx.limit.getD 50) }

/-- The retrieval "touch" applied to every search hit of
`retrieve_by_context`: refresh `last_accessed`, bump `access_count`. -/
def touchItem (now : Int) (item : MemoryItem) : MemoryItem :=
  { item with lastAccessed := now, accessCount := item.accessCount + 1 }

/-- Touch every result in order, persisting each via `update`, and return
the updated rows together with the touched in-memory items. -/
def touchAll (now : Int) (rows : List Row) (items : List MemoryItem) :
    List Row × List MemoryItem :=
  items.foldl
    (fun acc item =>
      let touched := touchItem now item
      ((SQLiteMemoryStore.update false acc.1 touched).1, acc.2 ++ [touched]))
    (rows, [])

/-- `MemoryRetrieval.retrieve_by_context`: per requested tier, search with
the context query, touch every hit, collect everything, then sort the merged
list with `ctxOrder`. -/
def MemoryRetrieval.retrieve_by_context (now : Int) (ctx : Context)
    (memoryTypes : List MemoryType) (sys : MemSys) :
    MemSys × List MemoryItem :=
  let stepped := memoryTypes.foldl
    (fun (acc : MemSys × List MemoryItem) mt =>
      if storesHas mt then
        let q := MemoryRetrieval.build_context_query ctx mt
        let results := SQLiteMemoryStore.search false now (acc.1.tier mt) q
        let (rows, touched) := touchAll now (acc.1.tier mt) results
        (acc.1.setTier mt rows, acc.2 ++ touched)
      else acc)
    (sys, [])
  (stepped.1, stepped.2.insertionSort ctxOrder)

/-- Structural split of a character list on spaces (the built-in string
split functions recurse on byte positions and are opaque to evaluation, so
the split is modelled over `String.data` directly). -/
def pySplitAux : List Char → List Char → List (List Char)
  | [], acc => [acc.reverse]
  | c :: cs, acc =>
    if c = ' ' then acc.reverse :: pySplitAux cs []
    else pySplitAux cs (c :: acc)

/-- The space-separated chunks of `s.lower()` (Python `s.lower().split(" ")`
including empty chunks; callers filter those out). -/
def lowerWords (s : String) : List String :=
  (pySplitAux (s.data.map Char.toLower) []).map String.mk

/-- The set of lowercase whitespace-separated words of a string
(Python `s.lower().split()`). -/
def wordsOf (s : String) : Finset String :=
  ((lowerWords s).filter (fun w => decide (¬ w = ""))).toFinset

/-- `MemoryRetrieval._calculate_similarity`: 0.4 · tag Jaccard (when both tag
sets are nonempty) + 0.4 · word Jaccard (when both contents are text with
nonempty word sets) + 0.2 · temporal proximity, clamped above by 1. -/
def MemoryRetrieval.calculate_similarity (item1 item2 : MemoryItem) : ℚ :=
  let tagPart : ℚ :=
    if item1.tags ≠ ∅ ∧ item2.tags ≠ ∅ then
      ((item1.tags ∩ item2.tags).card : ℚ) / ((item1.tags ∪ item2.tags).card) * (2/5)
    else 0
  let wordPart : ℚ :=
    match item1.content, item2.content with
    | Content.text s1, Content.text s2 =>
      let w1 := wordsOf s1
      let w2 := wordsOf s2
      if w1 ≠ ∅ ∧ w2 ≠ ∅ then
        ((w1 ∩ w2).card : ℚ) / ((w1 ∪ w2).card) * (2/5)
      else 0
    | _, _ => 0
  let timeDiff : ℚ := ((item1.createdAt - item2.createdAt : Int).natAbs : ℚ)
  let timePart : ℚ := max 0 (1 - timeDiff / (30 * 24 * 3600)) * (1/5)
  min 1 (tagPart + wordPart + timePart)

/-- Sort relation on `(item, similarity)` pairs: similarity descending. -/
def simOrder (a b : MemoryItem × ℚ) : Prop := b.2 ≤ a.2

instance : DecidableRel simOrder := fun a b => by
  unfold simOrder; infer_instance

/-- The candidate pool actually examined by `retrieve_similar`: the
same-tier store's `search({'memory_type': ...})` result — which carries the
search's DEFAULT LIMIT of 100 — minus the reference itself. -/
def MemoryRetrieval.considered_candidates (now : Int) (ref : MemoryItem)
    (sys : MemSys) : List MemoryItem :=
  if storesHas ref.memoryType then
    (SQLiteMemoryStore.search false now (sys.tier ref.memoryType)
        { memoryType := some ref.memoryType }).filter
      (fun item => decide (¬ item.id = ref.id))
  else []

/-- `MemoryRetrieval.retrieve_similar`: score every considered candidate,
keep those at or above the threshold, sort by similarity descending. -/
def MemoryRetrieval.retrieve_similar (now : Int) (ref : MemoryItem)
    (threshold : ℚ) (sys : MemSys) : List MemoryItem :=
  let pairs := (MemoryRetrieval.considered_candidates now ref sys).filterMap
    (fun item =>
      let sim := MemoryRetrieval.calculate_similarity ref item
      if threshold ≤ sim then some (item, sim) else none)
  (pairs.insertionSort simOrder).map Prod.fst

/-- Sort relation used on the deduplicated association results and on
duplicate groups: importance descending (Python
`sort(key=..., reverse=True)`, stable on ties). -/
def impOrder (a b : MemoryItem) : Prop :=
  b.importanceScore ≤ a.importanceScore

instance : DecidableRel impOrder := fun a b => by
  unfold impOrder; infer_instance

/-- One expansion hop of `retrieve_by_association`: search every store (in
dictionary order) for the current frontier with limit 50; each per-store
query carries the whole frontier as its tag filter. -/
def MemoryRetrieval.association_hop (now : Int) (sys : MemSys)
    (frontier : List String) : List MemoryItem :=
  storeOrder.foldl
    (fun acc mt =>
      acc ++ SQLiteMemoryStore.search false now (sys.tier mt)
        { tags := some frontier, limit := some 50 })
    []

/-- Membership-based list union (models updating a Python set: only
genuinely new elements are appended). -/
def listUnion (xs ys : List String) : List String :=
  xs ++ ys.filter (fun y => decide (¬ y ∈ xs))

/-- Concepts harvested from one hop's results: every result's tags plus, for
text content, its words longer than 3 characters. -/
def harvestConcepts (items : List MemoryItem) : List String :=
  items.foldl
    (fun acc item =>
      let withTags := listUnion acc (item.tags.sort (· ≤ ·))
      match item.content with
      | Content.text s =>
        listUnion withTags
          ((lowerWords s).filter (fun w => decide (3 < w.length)))
      | Content.obj _ => withTags)
    []

/-- The depth loop of `retrieve_by_association`: stop on an empty frontier
or after `max_depth` hops; the next frontier is the harvested concepts minus
everything already visited. -/
def MemoryRetrieval.association_loop (now : Int) (sys : MemSys) :
    Nat → List String → List String → List MemoryItem → List MemoryItem
  | 0, _, _, acc => acc
  | fuel + 1, current, visited, acc =>
    if current.isEmpty then acc
    else
      let results := MemoryRetrieval.association_hop now sys current
      let newConcepts := harvestConcepts results
      let nextCurrent := newConcepts.filter (fun c => decide (¬ c ∈ visited))
      let nextVisited := listUnion visited newConcepts
      MemoryRetrieval.association_loop now sys fuel nextCurrent nextVisited
        (acc ++ results)

/-- Deduplication by id with Python dict-comprehension semantics: each id
keeps its first-occurrence position but the LAST item with that id wins. -/
def dedupById (items : List MemoryItem) : List MemoryItem :=
  items.foldl
    (fun acc item =>
      if acc.any (fun x => decide (x.id = item.id)) then
        acc.map (fun x => if x.id = item.id then item else x)
      else acc ++ [item])
    []

/-- `MemoryRetrieval.retrieve_by_association`: breadth-first associative
expansion from the seed concepts, then id-deduplication and an
importance-descending sort. -/
def MemoryRetrieval.retrieve_by_association (now : Int)
    (seedConcepts : List String) (maxDepth : Nat) (sys : MemSys) :
    List MemoryItem :=
  (dedupById
      (MemoryRetrieval.association_loop now sys maxDepth seedConcepts
        seedConcepts [])).insertionSort impOrder

/-- The aggregate counters returned by a consolidation run. -/
structure ConsolidationStats where
  workingToEpisodic : Nat := 0
  workingToSemantic : Nat := 0
  expiredRemoved : Nat := 0
  duplicatesMerged : Nat := 0
  importanceUpdated : Nat := 0
deriving DecidableEq, Repr

/-- `MemoryConsolidation._should_consolidate`: importance at least 0.7, or
access count at least 5, or text content longer than 100 characters. -/
def MemoryConsolidation.should_consolidate (item : MemoryItem) : Bool :=
  decide ((7 : ℚ)/10 ≤ item.importanceScore) ||
  decide (5 ≤ item.accessCount) ||
  (match item.content with
    | Content.text s => decide (100 < s.length)
    | Content.obj _ => false)

/-- The experiential indicator substrings of
`MemoryConsolidation._is_experiential`. -/
def experientialIndicators : List String :=
  ["task_execution", "user_interaction", "decision_made",
   "problem_solved", "error_encountered", "learning_event"]

/-- `metadata.get('type', '')`. -/
def metaTypeOf (item : MemoryItem) : String :=
  (item.metadata.lookup "type").getD ""

/-- `MemoryConsolidation._is_experiential`: some indicator occurs as a
substring of `metadata.get('type', '')`. -/
def MemoryConsolidation.is_experiential (item : MemoryItem) : Bool :=
  experientialIndicators.any
    (fun ind => decide (ind.toList <:+: (metaTypeOf item).toList))

/-- `MemoryConsolidation._consolidate_to_longterm`: build the Episodic or
Semantic replacement (carrying over every base field, with a fresh id
modelled as a prefixed rename) and store it in the target tier.  The
string-typed metadata-derived fields (`outcome`, `concept`, `source`) are
populated from `metadata`; the structured ones (`context`, `participants`,
`lessons_learned`, `relationships`, numeric `confidence_score`) fall back to
their defaults under this model's string-valued metadata — none of them is
persisted by the store in any case. -/
def MemoryConsolidation.consolidate_to_longterm (item : MemoryItem)
    (sys : MemSys) : MemSys × Option MemoryItem :=
  let consolidated : MemoryItem :=
    if MemoryConsolidation.is_experiential item then
      { id := "episodic_" ++ item.id
        content := item.content
        memoryType := MemoryType.episodic
        createdAt := item.createdAt
        lastAccessed := item.lastAccessed
        accessCount := item.accessCount
        importanceScore := item.importanceScore
        tags := item.tags
        metadata := item.metadata
        variant := Variant.episodic [] [] (item.metadata.lookup "outcome") [] }
    else
      { id := "semantic_" ++ item.id
        content := item.content
        memoryType := MemoryType.semantic
        createdAt := item.createdAt
        lastAccessed := item.lastAccessed
        accessCount := item.accessCount
        importanceScore := item.importanceScore
        tags := item.tags
        metadata := item.metadata
        variant := Variant.semantic ((item.metadata.lookup "concept").getD "")
          [] 1 (item.metadata.lookup "source") }
  let target := consolidated.memoryType
  let (rows, ok) := SQLiteMemoryStore.store false (sys.tier target) consolidated
  if ok then (sys.setTier target rows, some consolidated) else (sys, none)

/-- Step 1 of `consolidate_memories`: sweep the working store's search
result (note: the query carries no explicit limit, so the default limit of
100 applies) and, for each item whose reconstructed `expiry_time` has
passed, optionally promote it and in all cases delete it from Working. -/
def MemoryConsolidation.expire_step (now : Int) (sys : MemSys) :
    MemSys × ConsolidationStats :=
  let workingItems := SQLiteMemoryStore.search false now sys.working
    { memoryType := some MemoryType.working }
  workingItems.foldl
    (fun (acc : MemSys × ConsolidationStats) item =>
      match item.variant with
      | Variant.working _ (some expiry) _ =>
        if expiry < now then
          let afterCons :=
            if MemoryConsolidation.should_consolidate item then
              match MemoryConsolidation.consolidate_to_longterm item acc.1 with
              | (s, some c) =>
                if c.memoryType = MemoryType.episodic then
                  (s, { acc.2 with
                    workingToEpisodic := acc.2.workingToEpisodic + 1 })
                else if c.memoryType = MemoryType.semantic then
                  (s, { acc.2 with
                    workingToSemantic := acc.2.workingToSemantic + 1 })
                else (s, acc.2)
              | (s, none) => (s, acc.2)
            else (acc.1, acc.2)
          let sys2 := afterCons.1.setTier MemoryType.working
            (SQLiteMemoryStore.delete false afterCons.1.working item.id).1
          (sys2, { afterCons.2 with
            expiredRemoved := afterCons.2.expiredRemoved + 1 })
        else acc
      | _ => acc)
    (sys, {})

/-- `MemoryConsolidation._calculate_importance`: base 0.5 plus access,
recency, content, tag and metadata factors, capped above at 1.
`timedelta.days` is flooring integer division of the second difference. -/
def MemoryConsolidation.calculate_importance (now : Int) (item : MemoryItem) :
    ℚ :=
  let accessFactor := min 1 ((item.accessCount : ℚ) / 10) * (3/10)
  let daysOld : Int := (now - item.lastAccessed).fdiv 86400
  let recencyFactor := max 0 (1 - (daysOld : ℚ) / 365) * (1/5)
  let contentFactor :=
    (match item.content with
      | Content.text s => min 1 ((s.length : ℚ) / 1000)
      | Content.obj _ => 0) * (1/5)
  let tagFactor := min 1 ((item.tags.card : ℚ) / 10) * (1/10)
  let metadataFactor := min 1 ((item.metadata.length : ℚ) / 5) * (1/5)
  min 1 (1/2 + accessFactor + recencyFactor + contentFactor + tagFactor +
    metadataFactor)

/-- Importance recompute over one long-term tier (limit 1000): persist the
new score only when it moves by more than 0.1. -/
def MemoryConsolidation.update_tier_importance (now : Int) (rows : List Row)
    (mt : MemoryType) : List Row :=
  let items := SQLiteMemoryStore.search false now rows
    { memoryType := some mt, limit := some 1000 }
  items.foldl
    (fun acc item =>
      let newScore := MemoryConsolidation.calculate_importance now item
      if 1/10 < |newScore - item.importanceScore| then
        (SQLiteMemoryStore.update false acc
          { item with importanceScore := newScore }).1
      else acc)
    rows

/-- Step 2 of `consolidate_memories`
(`MemoryConsolidation._update_importance_scores`): every tier except
Working. -/
def MemoryConsolidation.update_importance_scores (now : Int) (sys : MemSys) :
    MemSys :=
  { sys with
    episodic := MemoryConsolidation.update_tier_importance now sys.episodic
      MemoryType.episodic
    semantic := MemoryConsolidation.update_tier_importance now sys.semantic
      MemoryType.semantic }

/-- Grouping of items by their canonical content hash, in first-occurrence
order (Python `defaultdict` insertion order). -/
def groupByHash (items : List MemoryItem) : List (String × List MemoryItem) :=
  items.foldl
    (fun acc item =>
      let h := item.content.str
      if acc.any (fun g => decide (g.1 = h)) then
        acc.map (fun g => if g.1 = h then (g.1, g.2 ++ [item]) else g)
      else acc ++ [(h, [item])])
    []

/-- The per-duplicate fold of `_merge_duplicates`: sum access counts, union
tags, `dict.update` the metadata (the duplicate's values overwrite the
primary's on conflicting keys), keep the most recent `last_accessed`. -/
def MemoryConsolidation.fold_duplicate (p d : MemoryItem) : MemoryItem :=
  { p with
    accessCount := p.accessCount + d.accessCount
    tags := p.tags ∪ d.tags
    metadata := dictUpdate p.metadata d.metadata
    lastAccessed :=
      if p.lastAccessed < d.lastAccessed then d.lastAccessed
      else p.lastAccessed }

/-- Duplicate merge over one tier's rows (limit 1000): for every hash group
of size > 1, keep the stable importance-descending head as primary, fold in
and delete every other member, then persist the folded primary. -/
def MemoryConsolidation.merge_tier (now : Int) (rows : List Row)
    (mt : MemoryType) : List Row × Nat :=
  let items := SQLiteMemoryStore.search false now rows
    { memoryType := some mt, limit := some 1000 }
  (groupByHash items).foldl
    (fun (acc : List Row × Nat) group =>
      if 1 < group.2.length then
        match group.2.insertionSort impOrder with
        | [] => acc
        | primary :: rest =>
          let folded := rest.foldl MemoryConsolidation.fold_duplicate primary
          let afterDel := rest.foldl
            (fun r d => (SQLiteMemoryStore.delete false r d.id).1) acc.1
          ((SQLiteMemoryStore.update false afterDel folded).1,
            acc.2 + rest.length)
      else acc)
    (rows, 0)

/-- Step 3 of `consolidate_memories`
(`MemoryConsolidation._merge_duplicates`): every tier in dictionary order,
returning the merged-duplicate count. -/
def MemoryConsolidation.merge_duplicates (now : Int) (sys : MemSys) :
    MemSys × Nat :=
  let (w, cw) := MemoryConsolidation.merge_tier now sys.working
    MemoryType.working
  let (e, ce) := MemoryConsolidation.merge_tier now sys.episodic
    MemoryType.episodic
  let (s, cs) := MemoryConsolidation.merge_tier now sys.semantic
    MemoryType.semantic
  ({ working := w, episodic := e, semantic := s }, cw + ce + cs)

/-- One `consolidate_memories` run with an injected exception oracle: the
flag `faultK` raises inside step `K`.  The source wraps none of the three
steps in a `try`, so a raise aborts the rest of the run, keeps the changes
already committed by earlier steps, and propagates to the caller. -/
def MemoryConsolidation.consolidate_memories_run (fault1 fault2 fault3 : Bool)
    (now : Int) (sys : MemSys) : MemSys × Except String ConsolidationStats :=
  if fault1 then (sys, Except.error "expire step raised") else
  let step1 := MemoryConsolidation.expire_step now sys
  if fault2 then (step1.1, Except.error "importance step raised") else
  let sys2 := MemoryConsolidation.update_importance_scores now step1.1
  if fault3 then (sys2, Except.error "merge step raised") else
  let step3 := MemoryConsolidation.merge_duplicates now sys2
  (step3.1, Except.ok { step1.2 with
    importanceUpdated := 1, duplicatesMerged := step3.2 })

/-- A fault-free `consolidate_memories` run. -/
def MemoryConsolidation.consolidate_memories (now : Int) (sys : MemSys) :
    MemSys × ConsolidationStats :=
  match MemoryConsolidation.consolidate_memories_run false false false now
      sys with
  | (s, Except.ok stats) => (s, stats)
  | (s, Except.error _) => (s, {})

/-- One iteration of the background `consolidation_loop` of
`MemorySystem._start_background_tasks`: the whole run is wrapped in a
`try/except` that logs and swallows any exception; the boolean reports
whether an exception was caught there. -/
def MemorySystem.consolidation_iteration (fault1 fault2 fault3 : Bool)
    (now : Int) (sys : MemSys) : MemSys × Bool :=
  match MemoryConsolidation.consolidate_memories_run fault1 fault2 fault3 now
      sys with
  | (s, Except.ok _) => (s, false)
  | (s, Except.error _) => (s, true)

/-! Helper lemmas about the fault-free store operations. -/

theorem store_false_eq (rows : List Row) (item : MemoryItem) :
    SQLiteMemoryStore.store false rows item = (upsertRow rows item.toRow, true) :=
  rfl

theorem retrieve_false_eq (now : Int) (rows : List Row) (itemId : String) :
    SQLiteMemoryStore.retrieve false now rows itemId =
      (rows.find? (fun x => decide (x.id = itemId))).map
        (SQLiteMemoryStore.row_to_memory_item now) :=
  rfl

theorem search_false_eq (now : Int) (rows : List Row) (q : SearchQuery) :
    SQLiteMemoryStore.search false now rows q =
      (((rows.filter (matchesQuery q)).insertionSort rowOrder).take
        (q.limit.getD 100)).map (SQLiteMemoryStore.row_to_memory_item now) :=
  rfl

theorem delete_false_eq (rows : List Row) (itemId : String) :
    SQLiteMemoryStore.delete false rows itemId =
      (rows.filter (fun x => decide (¬ x.id = itemId)),
        rows.any (fun x => decide (x.id = itemId))) :=
  rfl

theorem row_to_memory_item_base (now : Int) (row : Row) :
    (SQLiteMemoryStore.row_to_memory_item now row).id = row.id ∧
    (SQLiteMemoryStore.row_to_memory_item now row).memoryType = row.memoryType ∧
    (SQLiteMemoryStore.row_to_memory_item now row).tags = row.tags :=
  ⟨rfl, rfl, rfl⟩

theorem row_to_memory_item_working_variant (now : Int) (row : Row)
    (h : row.memoryType = MemoryType.working) :
    (SQLiteMemoryStore.row_to_memory_item now row).variant =
      Variant.working none (some (now + 3600)) 5 := by
  simp [SQLiteMemoryStore.row_to_memory_item, h]

/-- Inversion for fault-free search membership: every hit decodes some stored
row that passes the query filter. -/
theorem search_mem_inv {now : Int} {rows : List Row} {q : SearchQuery}
    {item : MemoryItem}
    (h : item ∈ SQLiteMemoryStore.search false now rows q) :
    ∃ row, row ∈ rows ∧ matchesQuery q row = true ∧
      SQLiteMemoryStore.row_to_memory_item now row = item := by
  rw [search_false_eq] at h
  rcases List.mem_map.1 h with ⟨row, hrow, hdec⟩
  have hrow' := List.mem_of_mem_take hrow
  rw [List.mem_insertionSort] at hrow'
  rcases List.mem_filter.1 hrow' with ⟨hmem, hmatch⟩
  exact ⟨row, hmem, hmatch, hdec⟩

/-- C9: a persistence fault inside any of the five store operations never
escapes as an exception: `store`/`update`/`delete` report `False` with the
database unchanged, `retrieve` reports absence, and `search` reports the
empty list. -/
theorem c9_store_faults_never_escape :
    ∀ (rows : List Row) (item : MemoryItem) (itemId : String)
      (q : SearchQuery) (now : Int),
      SQLiteMemoryStore.store true rows item = (rows, false) ∧
      SQLiteMemoryStore.retrieve true now rows itemId = none ∧
      SQLiteMemoryStore.search true now rows q = [] ∧
      SQLiteMemoryStore.delete true rows itemId = (rows, false) ∧
      SQLiteMemoryStore.update true rows item = (rows, false) := fun _ _ _ _ _ =>
  ⟨rfl, rfl, rfl, rfl, rfl⟩

/-- C10: every Working-tier item handed out by the store's `retrieve` or
`search` carries `task_id = None`, `priority = 5`, and an `expiry_time`
equal to the reconstruction time plus one hour — strictly in the future at
the moment it is read — independently of whatever the item was stored
with, because those fields are not persisted and are re-defaulted on load. -/
theorem c10_working_fields_redefaulted :
    ∀ (now : Int) (rows : List Row) (itemId : String) (q : SearchQuery)
      (item : MemoryItem),
      (SQLiteMemoryStore.retrieve false now rows itemId = some item ∨
        item ∈ SQLiteMemoryStore.search false now rows q) →
      item.memoryType = MemoryType.working →
      item.variant = Variant.working none (some (now + 3600)) 5 ∧
        now < now + 3600 := by
  intro now rows itemId q item hsrc htype
  refine ⟨?_, by omega⟩
  have key : ∀ row : Row,
      SQLiteMemoryStore.row_to_memory_item now row = item →
      item.variant = Variant.working none (some (now + 3600)) 5 := by
    intro row hrow
    have hmt : row.memoryType = MemoryType.working := by
      have := (row_to_memory_item_base now row).2.1
      rw [hrow] at this
      rw [← this, htype]
    rw [← hrow]
    exact row_to_memory_item_working_variant now row hmt
  rcases hsrc with hret | hsea
  · rw [retrieve_false_eq] at hret
    rcases Option.map_eq_some'.1 hret with ⟨row, _, hdec⟩
    exact key row hdec
  · rcases search_mem_inv hsea with ⟨row, _, _, hdec⟩
    exact key row hdec

/-- A concrete Working row used to instantiate C10. -/
def c10row : Row :=
  { id := "w1", content := Content.text "hi",
    memoryType := MemoryType.working, createdAt := 0, lastAccessed := 0,
    accessCount := 3, importanceScore := 1/2, tags := ∅, metadata := [] }

theorem c10_working_fields_redefaulted_witness :
    (SQLiteMemoryStore.row_to_memory_item 50 c10row).variant =
      Variant.working none (some 3650) 5 ∧ (50 : Int) < 50 + 3600 :=
  c10_working_fields_redefaulted 50 [c10row] "w1" {}
    (SQLiteMemoryStore.row_to_memory_item 50 c10row)
    (Or.inl (by rw [retrieve_false_eq]; rfl)) rfl

/-!  Batteries marks the rational arithmetic operations irreducible, which
blocks `decide`-style evaluation of concrete runs; restore the default
reducibility for them (the kernel ignores reducibility either way). -/
attribute [local semireducible] Rat.mul Rat.inv Rat.add Rat.sub

/-- C2 counterexample: the facade stores a caller-supplied
`importance_score` of 1.5 verbatim; the retrieved item's score is 1.5,
outside [0,1], so no clamping happens on store. -/
theorem c2_counterexample :
    ((MemorySystem.retrieve_memory 10
        (MemorySystem.store_memory false 0 "s1" (Content.text "c")
          MemoryType.semantic { importanceScore := 3/2 } MemSys.empty).1
        "s1").map MemoryItem.importanceScore) = some (3/2) ∧
      ¬ ((3 : ℚ)/2 ≤ 1) := by
  constructor
  · rfl
  · norm_num

theorem min_one_nonneg {x : ℚ} (hx : 0 ≤ x) : 0 ≤ min 1 x :=
  le_min (by norm_num) hx

/-- C2 amended: `store_memory` persists the caller-supplied
`importance_score` verbatim (no clamping), so the stored score lies in [0,1]
exactly when the caller's value does; the scores produced by consolidation's
importance recompute, by contrast, always lie in [0,1]. -/
theorem c2_importance_unclamped_but_recompute_bounded :
    (∀ (now : Int) (itemId : String) (content : Content) (mt : MemoryType)
        (attrs : StoreAttrs),
        (MemorySystem.build_item now itemId content mt attrs).importanceScore =
          attrs.importanceScore) ∧
    (∀ (now : Int) (item : MemoryItem),
        0 ≤ MemoryConsolidation.calculate_importance now item ∧
          MemoryConsolidation.calculate_importance now item ≤ 1) := by
  refine ⟨fun _ _ _ _ _ => rfl, fun now item => ?_⟩
  unfold MemoryConsolidation.calculate_importance
  have hac : (0:ℚ) ≤ min 1 ((item.accessCount : ℚ) / 10) * (3/10) :=
    mul_nonneg (min_one_nonneg (by positivity)) (by norm_num)
  have hrec : (0:ℚ) ≤
      max 0 (1 - (((now - item.lastAccessed).fdiv 86400 : Int) : ℚ) / 365) *
        (1/5) :=
    mul_nonneg (le_max_left 0 _) (by norm_num)
  have hcon : (0:ℚ) ≤ (match item.content with
      | Content.text s => min 1 ((s.length : ℚ) / 1000)
      | Content.obj _ => 0) * (1/5) := by
    refine mul_nonneg ?_ (by norm_num)
    cases item.content with
    | text s => exact min_one_nonneg (by positivity)
    | obj r => exact le_refl 0
  have htag : (0:ℚ) ≤ min 1 ((item.tags.card : ℚ) / 10) * (1/10) :=
    mul_nonneg (min_one_nonneg (by positivity)) (by norm_num)
  have hmeta : (0:ℚ) ≤ min 1 ((item.metadata.length : ℚ) / 5) * (1/5) :=
    mul_nonneg (min_one_nonneg (by positivity)) (by norm_num)
  constructor
  · refine le_min (by norm_num) ?_
    have : (0:ℚ) ≤ 1/2 := by norm_num
    linarith
  · exact min_le_left _ _

instance : IsTotal MemoryItem ctxOrder :=
  ⟨fun a b => by
    unfold ctxOrder
    rcases lt_trichotomy a.importanceScore b.importanceScore with h | h | h
    · exact Or.inr (Or.inl h)
    · rcases Nat.le_total a.accessCount b.accessCount with hle | hle
      · exact Or.inl (Or.inr ⟨h, hle⟩)
      · exact Or.inr (Or.inr ⟨h.symm, hle⟩)
    · exact Or.inl (Or.inl h)⟩

instance : IsTrans MemoryItem ctxOrder :=
  ⟨fun a b c hab hbc => by
    unfold ctxOrder at hab hbc ⊢
    rcases hab with h1 | ⟨h1, h1'⟩ <;> rcases hbc with h2 | ⟨h2, h2'⟩
    · exact Or.inl (h2.trans h1)
    · exact Or.inl (h2 ▸ h1)
    · exact Or.inl (h1 ▸ h2)
    · exact Or.inr ⟨h1.trans h2, h1'.trans h2'⟩⟩

/-- C7 amended: the merged result list of `retrieve_by_context` is sorted by
importance descending with ties broken by (post-touch) access count
ASCENDING — the source negates the access count in the sort key while also
passing `reverse=True`, so the two inversions cancel on the tie-break. -/
theorem c7_context_sorted_importance_desc_access_asc :
    ∀ (now : Int) (ctx : Context) (memoryTypes : List MemoryType)
      (sys : MemSys),
      List.Pairwise ctxOrder
        (MemoryRetrieval.retrieve_by_context now ctx memoryTypes sys).2 := by
  intro now ctx memoryTypes sys
  exact List.sorted_insertionSort ctxOrder _

/-- Two equally-important semantic rows with different access counts. -/
def c7rowA : Row :=
  { id := "a", content := Content.text "x", memoryType := MemoryType.semantic,
    createdAt := 0, lastAccessed := 10, accessCount := 5,
    importanceScore := 1/2, tags := ∅, metadata := [] }

def c7rowB : Row :=
  { id := "b", content := Content.text "y", memoryType := MemoryType.semantic,
    createdAt := 0, lastAccessed := 20, accessCount := 1,
    importanceScore := 1/2, tags := ∅, metadata := [] }

def c7sys : MemSys := { working := [], episodic := [], semantic := [c7rowA, c7rowB] }

/-- The ordering asserted by the claim: importance descending with ties
broken by access count DESCENDING. -/
def c7claimOrder (a b : MemoryItem) : Prop :=
  b.importanceScore < a.importanceScore ∨
    (a.importanceScore = b.importanceScore ∧ b.accessCount ≤ a.accessCount)

instance : DecidableRel c7claimOrder := fun a b => by
  unfold c7claimOrder; infer_instance

/-- C7 counterexample: on two equally-important items with (post-touch)
access counts 2 and 6, `retrieve_by_context` returns the access count 2
item FIRST, so the result is not sorted with ties broken by access count
descending. -/
theorem c7_counterexample :
    ¬ List.Pairwise c7claimOrder
        (MemoryRetrieval.retrieve_by_context 100 {} [MemoryType.semantic]
          c7sys).2 := by
  decide

/-- C6 amended: an exception raised inside one of the three consolidation
steps is NOT caught within the run: it aborts the remaining steps — here a
raise in the importance-recompute step prevents the duplicate-merge step —
while the changes already committed by earlier steps are kept, and the
exception propagates out of `consolidate_memories`; only the background
consolidation loop catches and logs it, at whole-run granularity. -/
theorem c6_step_failure_aborts_run :
    ∀ (fault3 : Bool) (now : Int) (sys : MemSys),
      MemoryConsolidation.consolidate_memories_run false true fault3 now sys =
        ((MemoryConsolidation.expire_step now sys).1,
          Except.error "importance step raised") ∧
      MemorySystem.consolidation_iteration false true fault3 now sys =
        ((MemoryConsolidation.expire_step now sys).1, true) :=
  fun _ _ _ => ⟨rfl, rfl⟩

def c6row1 : Row :=
  { id := "m1", content := Content.text "dup",
    memoryType := MemoryType.semantic, createdAt := 0, lastAccessed := 0,
    accessCount := 0, importanceScore := 9/10, tags := ∅, metadata := [] }

def c6row2 : Row :=
  { id := "m2", content := Content.text "dup",
    memoryType := MemoryType.semantic, createdAt := 0, lastAccessed := 0,
    accessCount := 0, importanceScore := 1/10, tags := ∅, metadata := [] }

def c6sys : MemSys := { working := [], episodic := [], semantic := [c6row1, c6row2] }

/-- C6 counterexample: on a store holding two mergeable duplicates, a run
whose importance-recompute step raises ends in an uncaught error and leaves
both duplicates in place (the merge step never executes), whereas the
fault-free run merges them into one. -/
theorem c6_counterexample :
    (MemoryConsolidation.consolidate_memories_run false true false 100
        c6sys).2 = Except.error "importance step raised" ∧
    (MemoryConsolidation.consolidate_memories_run false true false 100
        c6sys).1.semantic.length = 2 ∧
    (MemoryConsolidation.consolidate_memories_run false false false 100
        c6sys).1.semantic.length = 1 := by
  refine ⟨rfl, by decide, by decide⟩

/-- C1 counterexample: storing a Semantic item with `concept = "AI"` and
retrieving it returns `concept = ""` — the tier-specific attributes are not
persisted, so the round trip loses them. -/
theorem c1_counterexample :
    (MemorySystem.build_item 0 "s1" (Content.text "c") MemoryType.semantic
        { concept := "AI" }).variant = Variant.semantic "AI" [] 1 none ∧
    ((MemorySystem.retrieve_memory 10
        (MemorySystem.store_memory false 0 "s1" (Content.text "c")
          MemoryType.semantic { concept := "AI" } MemSys.empty).1
        "s1").map MemoryItem.variant) =
      some (Variant.semantic "" [] 1 none) ∧
    Variant.semantic "" [] 1 none ≠ Variant.semantic "AI" [] 1 none := by
  refine ⟨rfl, rfl, by decide⟩

/-- Freshness of a candidate id across all three tiers (what the uuid-based
id generation provides). -/
def freshIn (sys : MemSys) (newId : String) : Prop :=
  (∀ r ∈ sys.working, ¬ r.id = newId) ∧
  (∀ r ∈ sys.episodic, ¬ r.id = newId) ∧
  (∀ r ∈ sys.semantic, ¬ r.id = newId)

/-- The tier payload every reloaded item of a given tier carries (the
dataclass / `__post_init__` defaults at reconstruction time `now`). -/
def defaultVariant (now : Int) : MemoryType → Variant
  | MemoryType.working => Variant.working none (some (now + 3600)) 5
  | MemoryType.episodic => Variant.episodic [] [] none []
  | MemoryType.semantic => Variant.semantic "" [] 1 none
  | MemoryType.procedural => Variant.plain

theorem find?_id_none (rows : List Row) (nid : String)
    (h : ∀ r ∈ rows, ¬ r.id = nid) :
    rows.find? (fun x => decide (x.id = nid)) = none := by
  induction rows with
  | nil => rfl
  | cons a as ih =>
    have ha : ¬ a.id = nid := h a (by simp)
    simp only [List.find?, decide_eq_false ha]
    exact ih (fun r hr => h r (by simp [hr]))

theorem find?_id_append_single (rows : List Row) (row : Row)
    (h : ∀ r ∈ rows, ¬ r.id = row.id) :
    (rows ++ [row]).find? (fun x => decide (x.id = row.id)) = some row := by
  induction rows with
  | nil => simp [List.find?]
  | cons a as ih =>
    have ha : ¬ a.id = row.id := h a (by simp)
    simp only [List.cons_append, List.find?, decide_eq_false ha]
    exact ih (fun r hr => h r (by simp [hr]))

theorem find?_upsert_fresh (rows : List Row) (row : Row)
    (h : ∀ r ∈ rows, ¬ r.id = row.id) :
    (upsertRow rows row).find? (fun x => decide (x.id = row.id)) = some row := by
  unfold upsertRow
  have hany : rows.any (fun x => decide (x.id = row.id)) = false := by
    rw [List.any_eq_false]
    intro x hx
    simp [h x hx]
  rw [hany]
  simp only [Bool.false_eq_true, if_false]
  exact find?_id_append_single rows row h

theorem retrieve_memory_found_working (now : Int) (sys : MemSys)
    (nid : String) (row : Row)
    (h : sys.working.find? (fun x => decide (x.id = nid)) = some row) :
    MemorySystem.retrieve_memory now sys nid =
      some (SQLiteMemoryStore.row_to_memory_item now row) := by
  unfold MemorySystem.retrieve_memory
  rw [retrieve_false_eq, h]
  rfl

theorem retrieve_memory_found_episodic (now : Int) (sys : MemSys)
    (nid : String) (row : Row)
    (hw : sys.working.find? (fun x => decide (x.id = nid)) = none)
    (he : sys.episodic.find? (fun x => decide (x.id = nid)) = some row) :
    MemorySystem.retrieve_memory now sys nid =
      some (SQLiteMemoryStore.row_to_memory_item now row) := by
  unfold MemorySystem.retrieve_memory
  rw [retrieve_false_eq, hw]
  simp only [Option.map_none']
  rw [retrieve_false_eq, he]
  rfl

theorem retrieve_memory_found_semantic (now : Int) (sys : MemSys)
    (nid : String) (row : Row)
    (hw : sys.working.find? (fun x => decide (x.id = nid)) = none)
    (he : sys.episodic.find? (fun x => decide (x.id = nid)) = none)
    (hs : sys.semantic.find? (fun x => decide (x.id = nid)) = some row) :
    MemorySystem.retrieve_memory now sys nid =
      some (SQLiteMemoryStore.row_to_memory_item now row) := by
  unfold MemorySystem.retrieve_memory
  rw [retrieve_false_eq, hw]
  simp only [Option.map_none']
  rw [retrieve_false_eq, he]
  simp only [Option.map_none']
  rw [retrieve_false_eq, hs]
  rfl

/-- C1 amended: the facade round trip preserves the base fields — content,
tier, importance, tags, metadata, creation and access data — but NOT the
tier-specific attributes: the retrieved item's tier payload is always the
reloaded default (`task_id = None`, `priority = 5`, fresh one-hour
`expiry_time` for Working; empty `context`/`participants`/`lessons` and no
`outcome` for Episodic; empty `concept`/`relationships`, `confidence = 1`,
no `source` for Semantic), because only the nine base columns are
persisted. -/
theorem c1_roundtrip_base_fields_only :
    ∀ (now1 now2 : Int) (newId : String) (content : Content)
      (mt : MemoryType) (attrs : StoreAttrs) (sys : MemSys),
      storesHas mt = true → freshIn sys newId →
      MemorySystem.retrieve_memory now2
          (MemorySystem.store_memory false now1 newId content mt attrs
            sys).1 newId =
        some { id := newId, content := content, memoryType := mt,
               createdAt := now1, lastAccessed := now1, accessCount := 0,
               importanceScore := attrs.importanceScore, tags := attrs.tags,
               metadata := attrs.metadata,
               variant := defaultVariant now2 mt } := by
  intro now1 now2 newId content mt attrs sys hhas hfresh
  obtain ⟨hw, he, hs⟩ := hfresh
  cases mt with
  | procedural => simp [storesHas] at hhas
  | working =>
    have hfind : (upsertRow sys.working
        (MemorySystem.build_item now1 newId content MemoryType.working
          attrs).toRow).find? (fun x => decide (x.id = newId)) =
        some (MemorySystem.build_item now1 newId content MemoryType.working
          attrs).toRow :=
      find?_upsert_fresh sys.working
        (MemorySystem.build_item now1 newId content MemoryType.working
          attrs).toRow (fun r hr => hw r hr)
    exact retrieve_memory_found_working now2
      (sys.setTier MemoryType.working
        (upsertRow sys.working (MemorySystem.build_item now1 newId content
          MemoryType.working attrs).toRow)) newId
      (MemorySystem.build_item now1 newId content MemoryType.working
        attrs).toRow hfind
  | episodic =>
    have hnone := find?_id_none sys.working newId hw
    have hfind : (upsertRow sys.episodic
        (MemorySystem.build_item now1 newId content MemoryType.episodic
          attrs).toRow).find? (fun x => decide (x.id = newId)) =
        some (MemorySystem.build_item now1 newId content MemoryType.episodic
          attrs).toRow :=
      find?_upsert_fresh sys.episodic
        (MemorySystem.build_item now1 newId content MemoryType.episodic
          attrs).toRow (fun r hr => he r hr)
    exact retrieve_memory_found_episodic now2
      (sys.setTier MemoryType.episodic
        (upsertRow sys.episodic (MemorySystem.build_item now1 newId content
          MemoryType.episodic attrs).toRow)) newId
      (MemorySystem.build_item now1 newId content MemoryType.episodic
        attrs).toRow hnone hfind
  | semantic =>
    have hnonew := find?_id_none sys.working newId hw
    have hnonee := find?_id_none sys.episodic newId he
    have hfind : (upsertRow sys.semantic
        (MemorySystem.build_item now1 newId content MemoryType.semantic
          attrs).toRow).find? (fun x => decide (x.id = newId)) =
        some (MemorySystem.build_item now1 newId content MemoryType.semantic
          attrs).toRow :=
      find?_upsert_fresh sys.semantic
        (MemorySystem.build_item now1 newId content MemoryType.semantic
          attrs).toRow (fun r hr => hs r hr)
    exact retrieve_memory_found_semantic now2
      (sys.setTier MemoryType.semantic
        (upsertRow sys.semantic (MemorySystem.build_item now1 newId content
          MemoryType.semantic attrs).toRow)) newId
      (MemorySystem.build_item now1 newId content MemoryType.semantic
        attrs).toRow hnonew hnonee hfind

theorem c1_roundtrip_base_fields_only_witness :
    MemorySystem.retrieve_memory 7
        (MemorySystem.store_memory false 3 "e1" (Content.text "evt")
          MemoryType.episodic
          { outcome := some "ok", importanceScore := 1,
            tags := {"t"}, metadata := [("k", "v")] } MemSys.empty).1 "e1" =
      some { id := "e1", content := Content.text "evt",
             memoryType := MemoryType.episodic, createdAt := 3,
             lastAccessed := 3, accessCount := 0, importanceScore := 1,
             tags := {"t"}, metadata := [("k", "v")],
             variant := defaultVariant 7 MemoryType.episodic } :=
  c1_roundtrip_base_fields_only 3 7 "e1" (Content.text "evt")
    MemoryType.episodic
    { outcome := some "ok", importanceScore := 1, tags := {"t"},
      metadata := [("k", "v")] } MemSys.empty rfl
    ⟨fun r hr => absurd hr (List.not_mem_nil r),
     fun r hr => absurd hr (List.not_mem_nil r),
     fun r hr => absurd hr (List.not_mem_nil r)⟩

/-- A semantic row carrying only one of the two frontier concepts. -/
def c4row : Row :=
  { id := "x1", content := Content.obj "o",
    memoryType := MemoryType.semantic, createdAt := 0, lastAccessed := 0,
    accessCount := 0, importanceScore := 1, tags := {"a"}, metadata := [] }

def c4sys : MemSys := { working := [], episodic := [], semantic := [c4row] }

/-- C4 counterexample: with seed frontier `["a", "b"]`, an item tagged only
`"a"` is NOT included in any hop's results — the association search comes
back empty — because the tag filter requires every frontier concept. -/
theorem c4_counterexample :
    MemoryRetrieval.retrieve_by_association 0 ["a", "b"] 3 c4sys = [] ∧
    ("a" : String) ∈ c4row.tags := by
  exact ⟨by decide, by decide⟩

/-- C4 amended: at each expansion depth, the per-tier search of
`retrieve_by_association` returns only items tagged with ALL concepts of the
current frontier (the store ANDs one LIKE clause per tag), limited to 50 per
tier per hop; an item carrying only one of two frontier concepts is
excluded from that hop's results. -/
theorem c4_association_hop_requires_all_frontier_tags :
    ∀ (now : Int) (sys : MemSys) (frontier : List String)
      (item : MemoryItem) (c : String),
      item ∈ MemoryRetrieval.association_hop now sys frontier →
      c ∈ frontier → c ∈ item.tags := by
  intro now sys frontier item c hmem hc
  have key : ∀ rows : List Row,
      item ∈ SQLiteMemoryStore.search false now rows
        { tags := some frontier, limit := some 50 } →
      c ∈ item.tags := by
    intro rows hm
    rcases search_mem_inv hm with ⟨row, _, hmatch, hdec⟩
    simp only [matchesQuery, Bool.and_eq_true, List.all_eq_true,
      decide_eq_true_eq, true_and, and_true] at hmatch
    have htag : c ∈ row.tags := hmatch c hc
    rw [← hdec]
    exact htag
  have hsplit : MemoryRetrieval.association_hop now sys frontier =
      (SQLiteMemoryStore.search false now (sys.tier MemoryType.working)
          { tags := some frontier, limit := some 50 } ++
        SQLiteMemoryStore.search false now (sys.tier MemoryType.episodic)
          { tags := some frontier, limit := some 50 }) ++
      SQLiteMemoryStore.search false now (sys.tier MemoryType.semantic)
        { tags := some frontier, limit := some 50 } := rfl
  rw [hsplit] at hmem
  rcases List.mem_append.1 hmem with hmem' | hmem'
  · rcases List.mem_append.1 hmem' with hmem'' | hmem''
    · exact key _ hmem''
    · exact key _ hmem''
  · exact key _ hmem'

/-- A semantic row carrying both frontier concepts, used to instantiate the
amended C4 theorem. -/
def c4wrow : Row :=
  { id := "x2", content := Content.obj "o",
    memoryType := MemoryType.semantic, createdAt := 0, lastAccessed := 0,
    accessCount := 0, importanceScore := 1, tags := {"a", "b"},
    metadata := [] }

def c4wsys : MemSys := { working := [], episodic := [], semantic := [c4wrow] }

theorem c4_association_hop_requires_all_frontier_tags_witness :
    ("b" : String) ∈
      (SQLiteMemoryStore.row_to_memory_item 0 c4wrow).tags :=
  c4_association_hop_requires_all_frontier_tags 0 c4wsys ["a", "b"]
    (SQLiteMemoryStore.row_to_memory_item 0 c4wrow) "b" (by decide)
    (by decide)

theorem foldl_id {α β : Type} (f : β → α → β) :
    ∀ (l : List α) (acc : β), (∀ x ∈ l, ∀ a, f a x = a) → l.foldl f acc = acc
  | [], _, _ => rfl
  | x :: xs, acc, h => by
    rw [List.foldl_cons, h x (by simp)]
    exact foldl_id f xs acc (fun y hy a => h y (by simp [hy]) a)

/-- The expire-and-promote sweep is a no-op on every state: each Working
item it reloads carries the re-defaulted `expiry_time = now + 1 hour`, so
the expiry test `now > expiry_time` never fires. -/
theorem expire_step_noop (now : Int) (sys : MemSys) :
    MemoryConsolidation.expire_step now sys = (sys, {}) := by
  unfold MemoryConsolidation.expire_step
  apply foldl_id
  intro item hmem acc
  rcases search_mem_inv hmem with ⟨row, _, hmatch, hdec⟩
  simp only [matchesQuery, Bool.and_eq_true, decide_eq_true_eq, true_and,
    and_true] at hmatch
  have hvar : item.variant = Variant.working none (some (now + 3600)) 5 := by
    rw [← hdec]
    exact row_to_memory_item_working_variant now row hmatch
  rw [hvar]
  simp only []
  rw [if_neg (by omega)]

/-- The working item of the C3 scenario: past expiry, importance 0.9 and an
experiential `metadata.type`, stored at time 0. -/
def c3attrs : StoreAttrs :=
  { expiryTime := some (-100), importanceScore := 9/10,
    metadata := [("type", "user_interaction")] }

def c3sys : MemSys :=
  (MemorySystem.store_memory false 0 "w1" (Content.text "task run")
    MemoryType.working c3attrs MemSys.empty).1

/-- C3: the consolidation code itself classifies the stored item as
promotable and experiential, yet one full consolidation run at a much later
time leaves it in Working and puts nothing into Episodic or Semantic —
because `expiry_time` is not persisted, the reloaded item's expiry is
always one hour in the future and the expire/promote branch is
unreachable. -/
theorem c3_expired_item_never_promoted :
    MemoryConsolidation.should_consolidate
        (MemorySystem.build_item 0 "w1" (Content.text "task run")
          MemoryType.working c3attrs) = true ∧
    MemoryConsolidation.is_experiential
        (MemorySystem.build_item 0 "w1" (Content.text "task run")
          MemoryType.working c3attrs) = true ∧
    (MemoryConsolidation.consolidate_memories 1000000 c3sys).1.working =
      [(MemorySystem.build_item 0 "w1" (Content.text "task run")
        MemoryType.working c3attrs).toRow] ∧
    (MemoryConsolidation.consolidate_memories 1000000 c3sys).1.episodic = [] ∧
    (MemoryConsolidation.consolidate_memories 1000000 c3sys).1.semantic = [] := by
  refine ⟨by decide, by decide, by decide, by decide, by decide⟩

theorem lookup_map_replace_self (k0 v0 : String) :
    ∀ d : List (String × String), d.any (fun p => decide (p.1 = k0)) = true →
      (d.map (fun p => if p.1 = k0 then (k0, v0) else p)).lookup k0 = some v0
  | [], h => by simp at h
  | (pk, pv) :: ps, h => by
    by_cases hp : pk = k0
    · simp only [List.map_cons, if_pos hp, List.lookup_cons_self]
    · have h' : ps.any (fun p => decide (p.1 = k0)) = true := by
        simp only [List.any_cons, Bool.or_eq_true, decide_eq_true_eq] at h
        rcases h with h | h
        · exact absurd h hp
        · exact h
      simp only [List.map_cons, if_neg hp, List.lookup_cons,
        beq_false_of_ne (Ne.symm hp)]
      exact lookup_map_replace_self k0 v0 ps h'

theorem lookup_map_replace_ne (k0 v0 k : String) (hk : ¬ k = k0) :
    ∀ d : List (String × String),
      (d.map (fun p => if p.1 = k0 then (k0, v0) else p)).lookup k =
        d.lookup k
  | [] => rfl
  | (pk, pv) :: ps => by
    by_cases hp : pk = k0
    · have hkp : ¬ k = pk := fun hc => hk (hc.trans hp)
      simp only [List.map_cons, if_pos hp, List.lookup_cons,
        beq_false_of_ne hk, beq_false_of_ne hkp]
      exact lookup_map_replace_ne k0 v0 k hk ps
    · simp only [List.map_cons, if_neg hp, List.lookup_cons]
      cases hbeq : (k == pk) with
      | true => rfl
      | false => exact lookup_map_replace_ne k0 v0 k hk ps

theorem lookup_dictInsert (d : List (String × String))
    (kv : String × String) (k : String) :
    (dictInsert d kv).lookup k =
      if k = kv.1 then some kv.2 else d.lookup k := by
  obtain ⟨k0, v0⟩ := kv
  show (dictInsert d (k0, v0)).lookup k = if k = k0 then some v0 else d.lookup k
  unfold dictInsert
  by_cases hany : d.any (fun p => decide (p.1 = k0)) = true
  · rw [if_pos hany]
    by_cases hk : k = k0
    · subst hk
      rw [if_pos rfl]
      exact lookup_map_replace_self k v0 d hany
    · rw [if_neg hk]
      exact lookup_map_replace_ne k0 v0 k hk d
  · rw [if_neg hany, List.lookup_append]
    have hkeys : ∀ p ∈ d, ¬ p.1 = k0 := by
      intro p hp hcon
      exact hany (List.any_eq_true.2 ⟨p, hp, by simp [hcon]⟩)
    by_cases hk : k = k0
    · subst hk
      have hdnone : d.lookup k = none := by
        rw [List.lookup_eq_none_iff]
        intro p hp
        simp only [bne_iff_ne, ne_eq]
        intro hcon
        exact hkeys p hp hcon.symm
      rw [hdnone, Option.none_or, if_pos rfl, List.lookup_cons_self]
    · rw [if_neg hk]
      have hsing : ([(k0, v0)] : List (String × String)).lookup k = none := by
        simp [List.lookup_cons, beq_false_of_ne hk]
      rw [hsing, Option.or_none]

theorem lookup_dictUpdate (k : String) :
    ∀ (other d : List (String × String)),
      (other.map Prod.fst).Nodup →
      (dictUpdate d other).lookup k = (other.lookup k).or (d.lookup k)
  | [], d, _ => by simp [dictUpdate]
  | (k0, v0) :: os, d, hnodup => by
    have hnd : (os.map Prod.fst).Nodup := by
      simp only [List.map_cons, List.nodup_cons] at hnodup
      exact hnodup.2
    have hk0 : k0 ∉ os.map Prod.fst := by
      simp only [List.map_cons, List.nodup_cons] at hnodup
      exact hnodup.1
    have hstep : dictUpdate d ((k0, v0) :: os) =
        dictUpdate (dictInsert d (k0, v0)) os := rfl
    rw [hstep, lookup_dictUpdate k os (dictInsert d (k0, v0)) hnd,
      lookup_dictInsert]
    by_cases hk : k = k0
    · subst hk
      have hos : os.lookup k = none := by
        rw [List.lookup_eq_none_iff]
        intro p hp
        simp only [bne_iff_ne, ne_eq]
        intro hcon
        exact hk0 (List.mem_map.2 ⟨p, hp, hcon.symm⟩)
      rw [hos, List.lookup_cons_self, if_pos rfl]
      rfl
    · rw [if_neg hk]
      have hcons : (((k0, v0) :: os).lookup k) = os.lookup k := by
        simp [List.lookup_cons, beq_false_of_ne hk]
      rw [hcons]

theorem fold_duplicates_id :
    ∀ (rest : List MemoryItem) (p : MemoryItem),
      (rest.foldl MemoryConsolidation.fold_duplicate p).id = p.id ∧
      (rest.foldl MemoryConsolidation.fold_duplicate p).importanceScore =
        p.importanceScore
  | [], _ => ⟨rfl, rfl⟩
  | d :: ds, p => by
    rw [List.foldl_cons]
    exact fold_duplicates_id ds (MemoryConsolidation.fold_duplicate p d)

theorem fold_duplicates_accessCount :
    ∀ (rest : List MemoryItem) (p : MemoryItem),
      (rest.foldl MemoryConsolidation.fold_duplicate p).accessCount =
        p.accessCount + (rest.map MemoryItem.accessCount).sum
  | [], p => by simp
  | d :: ds, p => by
    rw [List.foldl_cons,
      fold_duplicates_accessCount ds (MemoryConsolidation.fold_duplicate p d)]
    have : (MemoryConsolidation.fold_duplicate p d).accessCount =
        p.accessCount + d.accessCount := rfl
    rw [this]
    simp only [List.map_cons, List.sum_cons]
    omega

theorem fold_duplicates_tags :
    ∀ (rest : List MemoryItem) (p : MemoryItem) (t : String),
      (t ∈ (rest.foldl MemoryConsolidation.fold_duplicate p).tags ↔
        t ∈ p.tags ∨ ∃ d ∈ rest, t ∈ d.tags)
  | [], p, t => by simp
  | d :: ds, p, t => by
    rw [List.foldl_cons,
      fold_duplicates_tags ds (MemoryConsolidation.fold_duplicate p d) t]
    have : (MemoryConsolidation.fold_duplicate p d).tags = p.tags ∪ d.tags :=
      rfl
    rw [this]
    simp only [Finset.mem_union, List.exists_mem_cons_iff]
    tauto

theorem fold_duplicates_lastAccessed :
    ∀ (rest : List MemoryItem) (p : MemoryItem),
      (∀ d ∈ p :: rest,
        d.lastAccessed ≤
          (rest.foldl MemoryConsolidation.fold_duplicate p).lastAccessed) ∧
      (rest.foldl MemoryConsolidation.fold_duplicate p).lastAccessed ∈
        (p :: rest).map MemoryItem.lastAccessed
  | [], p => by
    constructor
    · intro d hd
      rcases List.mem_singleton.1 hd with rfl
      exact le_refl _
    · simp
  | d :: ds, p => by
    have hla : (MemoryConsolidation.fold_duplicate p d).lastAccessed =
        max p.lastAccessed d.lastAccessed := by
      show (if p.lastAccessed < d.lastAccessed then d.lastAccessed
        else p.lastAccessed) = _
      rw [max_def]
      split_ifs <;> omega
    obtain ⟨ihbound, ihmem⟩ :=
      fold_duplicates_lastAccessed ds (MemoryConsolidation.fold_duplicate p d)
    have hhead : max p.lastAccessed d.lastAccessed ≤
        (ds.foldl MemoryConsolidation.fold_duplicate
          (MemoryConsolidation.fold_duplicate p d)).lastAccessed := by
      rw [← hla]
      exact ihbound _ (List.mem_cons_self _ _)
    rw [List.foldl_cons]
    refine ⟨?_, ?_⟩
    · intro x hx
      rcases List.mem_cons.1 hx with rfl | hx'
      · exact le_trans (le_max_left _ _) hhead
      · rcases List.mem_cons.1 hx' with rfl | hx''
        · exact le_trans (le_max_right _ _) hhead
        · exact ihbound x (List.mem_cons_of_mem _ hx'')
    · simp only [List.map_cons, List.mem_cons] at ihmem ⊢
      rcases ihmem with hmax | hmem'
      · rw [hla] at hmax
        rcases max_choice p.lastAccessed d.lastAccessed with hc | hc
        · exact Or.inl (hmax.trans hc)
        · exact Or.inr (Or.inl (hmax.trans hc))
      · exact Or.inr (Or.inr hmem')

theorem fold_duplicates_metadata :
    ∀ (rest : List MemoryItem) (p : MemoryItem) (k : String),
      (∀ d ∈ rest, (d.metadata.map Prod.fst).Nodup) →
      (rest.foldl MemoryConsolidation.fold_duplicate p).metadata.lookup k =
        (p :: rest).reverse.findSome? (fun d => d.metadata.lookup k)
  | [], p, k, _ => by
    cases hf : p.metadata.lookup k <;> simp [List.findSome?, hf]
  | d :: ds, p, k, h => by
    rw [List.foldl_cons,
      fold_duplicates_metadata ds (MemoryConsolidation.fold_duplicate p d) k
        (fun x hx => h x (List.mem_cons_of_mem _ hx))]
    have hmeta : (MemoryConsolidation.fold_duplicate p d).metadata =
        dictUpdate p.metadata d.metadata := rfl
    have hone : ∀ q : MemoryItem,
        ([q] : List MemoryItem).findSome? (fun x => x.metadata.lookup k) =
          q.metadata.lookup k := by
      intro q
      cases hf : q.metadata.lookup k <;> simp [List.findSome?, hf]
    rw [List.reverse_cons, List.findSome?_append, hone,
      hmeta, lookup_dictUpdate k d.metadata p.metadata
        (h d (List.mem_cons_self _ _))]
    rw [show ((p :: d :: ds).reverse : List MemoryItem) =
        (d :: ds).reverse ++ [p] from List.reverse_cons _ _]
    rw [List.findSome?_append, hone]
    rw [show ((d :: ds).reverse : List MemoryItem) =
        ds.reverse ++ [d] from List.reverse_cons _ _]
    rw [List.findSome?_append, hone]
    exact Option.or_assoc.symm

/-- Two semantic rows with identical canonical content and a conflicting
metadata key "k": the higher-importance primary holds "p", the duplicate
holds "d". -/
def c5rowP : Row :=
  { id := "p", content := Content.text "same",
    memoryType := MemoryType.semantic, createdAt := 0, lastAccessed := 5,
    accessCount := 2, importanceScore := 9, tags := {"a"},
    metadata := [("k", "p"), ("only", "x")] }

def c5rowD : Row :=
  { id := "d", content := Content.text "same",
    memoryType := MemoryType.semantic, createdAt := 0, lastAccessed := 9,
    accessCount := 3, importanceScore := 1, tags := {"b"},
    metadata := [("k", "d")] }

def c5sys : MemSys := { working := [], episodic := [], semantic := [c5rowP, c5rowD] }

/-- C5 counterexample: after one duplicate merge, exactly the primary
survives, with summed access count, unioned tags and the latest
`last_accessed` — but on the conflicting metadata key the value is the
DUPLICATE's "d", not the primary's pre-merge "p": `dict.update` lets each
duplicate overwrite the primary's keys. -/
theorem c5_counterexample :
    ((MemoryConsolidation.merge_duplicates 100 c5sys).1.semantic.map Row.id) =
      ["p"] ∧
    ((MemoryConsolidation.merge_duplicates 100 c5sys).1.semantic.map
      Row.accessCount) = [5] ∧
    ((MemoryConsolidation.merge_duplicates 100 c5sys).1.semantic.map
      Row.lastAccessed) = [9] ∧
    ((MemoryConsolidation.merge_duplicates 100 c5sys).1.semantic.map
      (fun r => decide (("a" : String) ∈ r.tags) &&
        decide (("b" : String) ∈ r.tags))) = [true] ∧
    ((MemoryConsolidation.merge_duplicates 100 c5sys).1.semantic.map
      (fun r => r.metadata.lookup "k")) = [some "d"] ∧
    some "d" ≠ some "p" := by
  refine ⟨by decide, by decide, by decide, by decide, by decide, by decide⟩

/-- C5 amended: for a duplicate group folded into its highest-importance
primary, the merged item keeps the primary's id and importance, carries the
group's summed `access_count`, the union of the group's tags, the maximum
`last_accessed` of the group, and metadata in which a key's value comes
from the LAST member of the group (in merge order) that defines it — i.e.
conflicting keys resolve to the last-merged duplicate's value, not the
primary's pre-merge value. -/
theorem c5_merge_group_fold :
    ∀ (primary : MemoryItem) (rest : List MemoryItem),
      (∀ d ∈ rest, (d.metadata.map Prod.fst).Nodup) →
      (rest.foldl MemoryConsolidation.fold_duplicate primary).id =
          primary.id ∧
      (rest.foldl MemoryConsolidation.fold_duplicate
          primary).importanceScore = primary.importanceScore ∧
      (rest.foldl MemoryConsolidation.fold_duplicate primary).accessCount =
        primary.accessCount + (rest.map MemoryItem.accessCount).sum ∧
      (∀ t : String,
        t ∈ (rest.foldl MemoryConsolidation.fold_duplicate primary).tags ↔
          t ∈ primary.tags ∨ ∃ d ∈ rest, t ∈ d.tags) ∧
      ((∀ d ∈ primary :: rest, d.lastAccessed ≤
          (rest.foldl MemoryConsolidation.fold_duplicate
            primary).lastAccessed) ∧
        (rest.foldl MemoryConsolidation.fold_duplicate
          primary).lastAccessed ∈
            (primary :: rest).map MemoryItem.lastAccessed) ∧
      (∀ k : String,
        (rest.foldl MemoryConsolidation.fold_duplicate
          primary).metadata.lookup k =
          (primary :: rest).reverse.findSome?
            (fun d => d.metadata.lookup k)) := by
  intro primary rest hnodup
  exact ⟨(fold_duplicates_id rest primary).1,
    (fold_duplicates_id rest primary).2,
    fold_duplicates_accessCount rest primary,
    fold_duplicates_tags rest primary,
    fold_duplicates_lastAccessed rest primary,
    fun k => fold_duplicates_metadata rest primary k hnodup⟩

def c5primItem : MemoryItem :=
  { id := "p", content := Content.text "same",
    memoryType := MemoryType.semantic, createdAt := 0, lastAccessed := 5,
    accessCount := 2, importanceScore := 9, tags := {"a"},
    metadata := [("k", "p"), ("only", "x")],
    variant := Variant.semantic "" [] 1 none }

def c5dupItem : MemoryItem :=
  { id := "d", content := Content.text "same",
    memoryType := MemoryType.semantic, createdAt := 0, lastAccessed := 9,
    accessCount := 3, importanceScore := 1, tags := {"b"},
    metadata := [("k", "d")],
    variant := Variant.semantic "" [] 1 none }

theorem c5_merge_group_fold_witness :
    ([c5dupItem].foldl MemoryConsolidation.fold_duplicate
        c5primItem).accessCount =
      c5primItem.accessCount +
        ([c5dupItem].map MemoryItem.accessCount).sum ∧
    ([c5dupItem].foldl MemoryConsolidation.fold_duplicate
        c5primItem).metadata.lookup "k" =
      (c5primItem :: [c5dupItem]).reverse.findSome?
        (fun d => d.metadata.lookup "k") := by
  have h := c5_merge_group_fold c5primItem [c5dupItem]
    (by intro d hd; rcases List.mem_singleton.1 hd with rfl; decide)
  exact ⟨h.2.2.1, h.2.2.2.2.2 "k"⟩

instance : IsTotal (MemoryItem × ℚ) simOrder :=
  ⟨fun a b => le_total b.2 a.2⟩

instance : IsTrans (MemoryItem × ℚ) simOrder :=
  ⟨fun _ _ _ hab hbc => le_trans hbc hab⟩

/-- C8 amended: `retrieve_similar` considers only the same-tier items
returned by the store's search under its DEFAULT LIMIT of 100 (the top 100
rows by importance descending, recency descending), minus the reference;
among exactly those candidates it keeps the ones whose similarity reaches
the threshold, sorted by similarity descending. -/
theorem c8_similar_exact_over_considered :
    ∀ (now : Int) (ref : MemoryItem) (threshold : ℚ) (sys : MemSys),
      (∀ item : MemoryItem,
        item ∈ MemoryRetrieval.retrieve_similar now ref threshold sys ↔
          (item ∈ MemoryRetrieval.considered_candidates now ref sys ∧
            threshold ≤ MemoryRetrieval.calculate_similarity ref item)) ∧
      List.Pairwise
        (fun a b => MemoryRetrieval.calculate_similarity ref b ≤
          MemoryRetrieval.calculate_similarity ref a)
        (MemoryRetrieval.retrieve_similar now ref threshold sys) := by
  intro now ref threshold sys
  have hpairs : MemoryRetrieval.retrieve_similar now ref threshold sys =
      (((MemoryRetrieval.considered_candidates now ref sys).filterMap
        (fun item =>
          let sim := MemoryRetrieval.calculate_similarity ref item
          if threshold ≤ sim then some (item, sim) else none)).insertionSort
            simOrder).map Prod.fst := rfl
  constructor
  · intro item
    constructor
    · intro h
      rw [hpairs] at h
      rcases List.mem_map.1 h with ⟨x, hx, rfl⟩
      rw [List.mem_insertionSort] at hx
      rcases List.mem_filterMap.1 hx with ⟨a, ha, hfa⟩
      have hfa' : (if threshold ≤ MemoryRetrieval.calculate_similarity ref a
          then some (a, MemoryRetrieval.calculate_similarity ref a)
          else none) = some x := hfa
      by_cases hcond :
          threshold ≤ MemoryRetrieval.calculate_similarity ref a
      · rw [if_pos hcond] at hfa'
        cases hfa'
        exact ⟨ha, hcond⟩
      · rw [if_neg hcond] at hfa'
        cases hfa' 
    · rintro ⟨hc, hsim⟩
      rw [hpairs]
      refine List.mem_map.2
        ⟨(item, MemoryRetrieval.calculate_similarity ref item), ?_, rfl⟩
      rw [List.mem_insertionSort]
      refine List.mem_filterMap.2 ⟨item, hc, ?_⟩
      show (if threshold ≤ MemoryRetrieval.calculate_similarity ref item
        then some (item, MemoryRetrieval.calculate_similarity ref item)
        else none) = _
      rw [if_pos hsim]
  · rw [hpairs, List.pairwise_map]
    have hsorted := List.sorted_insertionSort simOrder
      ((MemoryRetrieval.considered_candidates now ref sys).filterMap
        (fun item =>
          let sim := MemoryRetrieval.calculate_similarity ref item
          if threshold ≤ sim then some (item, sim) else none))
    refine List.Pairwise.imp_of_mem ?_ hsorted
    intro a b hma hmb hab
    have hinv : ∀ x, x ∈ (((MemoryRetrieval.considered_candidates now ref
        sys).filterMap (fun item =>
          let sim := MemoryRetrieval.calculate_similarity ref item
          if threshold ≤ sim then some (item, sim) else
            none)).insertionSort simOrder) →
        x.2 = MemoryRetrieval.calculate_similarity ref x.1 := by
      intro x hx
      rw [List.mem_insertionSort] at hx
      rcases List.mem_filterMap.1 hx with ⟨c, _, hfc⟩
      have hfc' : (if threshold ≤ MemoryRetrieval.calculate_similarity ref c
          then some (c, MemoryRetrieval.calculate_similarity ref c)
          else none) = some x := hfc
      by_cases hcond :
          threshold ≤ MemoryRetrieval.calculate_similarity ref c
      · rw [if_pos hcond] at hfc'
        cases hfc'
        rfl
      · rw [if_neg hcond] at hfc'
        cases hfc' 
    have ha2 := hinv a hma
    have hb2 := hinv b hmb
    unfold simOrder at hab
    rw [ha2, hb2] at hab
    exact hab

def c8wRefRow : Row :=
  { id := "wr", content := Content.text "alpha beta",
    memoryType := MemoryType.semantic, createdAt := 0, lastAccessed := 0,
    accessCount := 0, importanceScore := 1, tags := {"g"}, metadata := [] }

def c8wOtherRow : Row :=
  { id := "wo", content := Content.text "alpha beta",
    memoryType := MemoryType.semantic, createdAt := 0, lastAccessed := 1,
    accessCount := 0, importanceScore := 2, tags := {"g"}, metadata := [] }

def c8wsys : MemSys :=
  { working := [], episodic := [], semantic := [c8wRefRow, c8wOtherRow] }

theorem c8_similar_exact_over_considered_witness :
    SQLiteMemoryStore.row_to_memory_item 0 c8wOtherRow ∈
      MemoryRetrieval.retrieve_similar 0
        (SQLiteMemoryStore.row_to_memory_item 0 c8wRefRow) (7/10) c8wsys :=
  ((c8_similar_exact_over_considered 0
      (SQLiteMemoryStore.row_to_memory_item 0 c8wRefRow) (7/10) c8wsys).1
    (SQLiteMemoryStore.row_to_memory_item 0 c8wOtherRow)).2
    ⟨by decide, by decide⟩

/-- 100 high-importance semantic filler rows sharing nothing with the
reference and created more than 30 days away from it. -/
def c8decoy (i : Nat) : Row :=
  { id := "d" ++ toString i, content := Content.obj "z",
    memoryType := MemoryType.semantic, createdAt := 3456000,
    lastAccessed := -(i : Int), accessCount := 0, importanceScore := 9,
    tags := {"dtag"}, metadata := [] }

def c8refRow : Row :=
  { id := "r", content := Content.text "hello world",
    memoryType := MemoryType.semantic, createdAt := 0, lastAccessed := -200,
    accessCount := 0, importanceScore := 5, tags := {"rt"}, metadata := [] }

/-- A stored item identical in content, tags and creation time to the
reference, but with the lowest importance in the tier. -/
def c8twinRow : Row :=
  { id := "t", content := Content.text "hello world",
    memoryType := MemoryType.semantic, createdAt := 0, lastAccessed := -300,
    accessCount := 0, importanceScore := 1, tags := {"rt"}, metadata := [] }

def c8sys : MemSys :=
  { working := [], episodic := [],
    semantic := (List.range 100).map c8decoy ++ [c8refRow, c8twinRow] }

set_option maxRecDepth 20000 in
/-- C8 counterexample: the tier holds 102 items; the twin (same tier,
different id, similarity 1 ≥ the 0.9 threshold) should be returned by the
claim, but `retrieve_similar` comes back empty because the candidate search
stops at the store's default limit of 100 and the low-importance twin is
cut off. -/
theorem c8_counterexample :
    MemoryRetrieval.retrieve_similar 0
        (SQLiteMemoryStore.row_to_memory_item 0 c8refRow) (9/10) c8sys =
      [] ∧
    c8twinRow ∈ c8sys.semantic ∧
    ¬ (SQLiteMemoryStore.row_to_memory_item 0 c8twinRow).id =
        (SQLiteMemoryStore.row_to_memory_item 0 c8refRow).id ∧
    (SQLiteMemoryStore.row_to_memory_item 0 c8twinRow).memoryType =
      (SQLiteMemoryStore.row_to_memory_item 0 c8refRow).memoryType ∧
    (9 : ℚ)/10 ≤ MemoryRetrieval.calculate_similarity
      (SQLiteMemoryStore.row_to_memory_item 0 c8refRow)
      (SQLiteMemoryStore.row_to_memory_item 0 c8twinRow) := by
  refine ⟨by decide, by decide, by decide, by decide, by decide⟩
